import Mathlib

/-!
Shallow embedding of the grompp-error-sniffer core (src/error_finding.py and
src/dummies.py) together with theorems settling the specification claims.

Topology and error files are modelled as lists of physical lines (`List String`,
1-indexed by position).  Python dictionaries are modelled as insertion-ordered
association lists, matching Python's guaranteed dict iteration order.
-/

namespace Grompp

/-- Association-list dictionary lookup, mirroring Python dict access `d[k]` /
`k in d`: the value of the first binding of the key, if any. -/
def dfind? {α β : Type} [DecidableEq α] (d : List (α × β)) (k : α) : Option β :=
  (d.find? (fun p => decide (p.1 = k))).map (fun p => p.2)

/-- Association-list dictionary update, mirroring Python `d[k] = v`: overwrite
the binding in place if the key is present, otherwise append a new binding. -/
def dinsert {α β : Type} [DecidableEq α] (k : α) (v : β) : List (α × β) → List (α × β)
  | [] => [(k, v)]
  | p :: rest => if p.1 = k then (k, v) :: rest else p :: dinsert k v rest

/-- Python `str.lower()`, character by character. -/
def pyLower (s : String) : String :=
  ⟨s.data.map Char.toLower⟩

/-- Python `str.strip()`: drop leading and trailing whitespace. -/
def pyStrip (s : String) : String :=
  ⟨((s.data.dropWhile Char.isWhitespace).reverse.dropWhile Char.isWhitespace).reverse⟩

/-- Helper for `pySplit`: accumulate maximal runs of non-whitespace characters
(the current partial token is carried reversed). -/
def wordsAux : List Char → List Char → List (List Char)
  | [], acc => if acc = [] then [] else [acc.reverse]
  | c :: cs, acc =>
      if c.isWhitespace then
        if acc = [] then wordsAux cs [] else acc.reverse :: wordsAux cs []
      else wordsAux cs (c :: acc)

/-- Python `str.split()` with no arguments: split on whitespace runs and drop
the empty pieces. -/
def pySplit (s : String) : List String :=
  (wordsAux s.data []).map (fun l => ⟨l⟩)

/-- Is `pat` an initial segment of `l`? -/
def startsList : List Char → List Char → Bool
  | [], _ => true
  | _ :: _, [] => false
  | p :: ps, c :: cs => p = c && startsList ps cs

/-- Does `pat` occur as a contiguous sublist of `l`? -/
def listHasSub (pat : List Char) : List Char → Bool
  | [] => startsList pat []
  | c :: cs => startsList pat (c :: cs) || listHasSub pat cs

/-- Python substring test `pat in s`. -/
def strContains (s pat : String) : Bool :=
  listHasSub pat.data s.data

/-- Python `str.startswith(pat)`. -/
def pyStartsWith (s pat : String) : Bool :=
  startsList pat.data s.data

/-- Digit-string to number, failing on any non-digit character. -/
def natOfDigitsAux : List Char → Nat → Option Nat
  | [], acc => some acc
  | c :: cs, acc =>
      if c.isDigit then natOfDigitsAux cs (acc * 10 + (c.toNat - 48)) else none

/-- Digit-string to number; the empty string is rejected. -/
def natOfDigits (ds : List Char) : Option Nat :=
  if ds = [] then none else natOfDigitsAux ds 0

/-- Python `int(s)` on a whitespace-free token: an optional sign followed by
decimal digits; anything else raises (modelled as `none`). -/
def pyInt? (s : String) : Option Int :=
  match s.data with
  | '-' :: ds => (natOfDigits ds).map (fun n => -(n : Int))
  | '+' :: ds => (natOfDigits ds).map (fun n => (n : Int))
  | ds => (natOfDigits ds).map (fun n => (n : Int))

/-- Python format `f"{s:>w}"`: right-justify with spaces, never truncating. -/
def rjust (s : String) (w : Nat) : String :=
  String.mk (List.replicate (w - s.length) ' ') ++ s

/-- Python fixed-point float format `f"{x:w.pf}"` restricted to the nonnegative
integral constants this program formats (120.0, 200.0, 0.0, 1.0 …): the digits,
a decimal point, `p` zeros, right-justified to width `w`. -/
def fmtFixed (n : Nat) (w p : Nat) : String :=
  rjust (toString n ++ "." ++ String.mk (List.replicate p '0')) w

/-! ## Section indexer (`get_context_from_topology`) -/

/-- The recognized section headers (the `sections` list in
`get_context_from_topology`). -/
def sectionHeaders : List String :=
  ["[ atoms ]", "[ bonds ]", "[ pairs ]", "[ angles ]", "[ dihedrals ]"]

/-- One (already stripped) topology line checked against every recognized
header: the inner `for section in sections` loop of `get_context_from_topology`,
carrying the pair (occurrence counts, section-line dictionary). -/
def matchSections (i : Nat) (l : String) :
    List String → List (String × Nat) × List (String × Nat) →
      List (String × Nat) × List (String × Nat)
  | [], st => st
  | sec :: rest, (counts, sl) =>
      if pyLower l = pyLower sec then
        let c := (dfind? counts sec).getD 0 + 1
        let counts' := dinsert sec c counts
        let sl' :=
          if sec = "[ dihedrals ]" then
            if c = 1 then dinsert "[ proper dihedrals ]" i sl
            else if c = 2 then dinsert "[ improper dihedrals ]" i sl
            else sl
          else dinsert sec i sl
        matchSections i l rest (counts', sl')
      else matchSections i l rest (counts, sl)

/-- The line loop of `get_context_from_topology`, numbering lines from `i`. -/
def indexLines : Nat → List String →
    List (String × Nat) × List (String × Nat) →
      List (String × Nat) × List (String × Nat)
  | _, [], st => st
  | i, l :: rest, st => indexLines (i + 1) rest (matchSections i (pyStrip l) sectionHeaders st)

/-- `get_context_from_topology` from src/error_finding.py, acting on the
topology file's list of lines: a single pass that records section start lines,
splitting the `[ dihedrals ]` header into proper/improper entries by occurrence
order.  Occurrence counts start at 0 for every recognized header. -/
def get_context_from_topology (lines : List String) : List (String × Nat) :=
  (indexLines 1 lines (sectionHeaders.map (fun s => (s, 0)), [])).2

/-! ## Atom table builder (`extract_atom_names`) -/

/-- The per-atom metadata stored by `extract_atom_names`
(`{'name': …, 'type': …, 'resnr': …, 'residue': …}`). -/
structure AtomRec where
  name : String
  type : String
  resnr : String
  residue : String
deriving DecidableEq, Repr

/-- The `atoms_end` scan of `extract_atom_names`: the minimum section start
line strictly greater than `s`, with `none` standing for `float('inf')`. -/
def minAfter (s : Nat) : List (String × Nat) → Option Nat → Option Nat
  | [], acc => acc
  | p :: rest, acc =>
      if s < p.2 then
        match acc with
        | none => minAfter s rest (some p.2)
        | some e => if p.2 < e then minAfter s rest (some p.2) else minAfter s rest acc
      else minAfter s rest acc

/-- Has the read loop of `extract_atom_names` reached the end of the atoms
section (`line_num >= atoms_end`)? -/
def atEnd (endOpt : Option Nat) (n : Nat) : Bool :=
  match endOpt with
  | some e => decide (e ≤ n)
  | none => false

/-- The read loop of `extract_atom_names`: lines numbered from `n`, stopping at
`atoms_end`; blank lines and `;` comments are skipped; a data line with at
least 5 tokens is recorded positionally, and `none` models the exception raised
by `int(tokens[0])` on a non-integer first token. -/
def readAtomLines (endOpt : Option Nat) :
    Nat → List String → List (Int × AtomRec) → Option (List (Int × AtomRec))
  | _, [], acc => some acc
  | n, l :: rest, acc =>
      if atEnd endOpt n then some acc
      else
        let l' := pyStrip l
        if l' = "" ∨ pyStartsWith l' ";" then readAtomLines endOpt (n + 1) rest acc
        else
          match pySplit l' with
          | t0 :: t1 :: t2 :: t3 :: t4 :: _ =>
              match pyInt? t0 with
              | none => none
              | some atom_num =>
                  readAtomLines endOpt (n + 1) rest (dinsert atom_num ⟨t4, t1, t2, t3⟩ acc)
          | _ => readAtomLines endOpt (n + 1) rest acc

/-- `extract_atom_names` from src/error_finding.py: build the atom table from
the span of the `[ atoms ]` section; a missing section yields the empty table,
and the function's `except` clause turns any raised exception into the empty
table as well. -/
def extract_atom_names (lines : List String) (section_lines : List (String × Nat)) :
    List (Int × AtomRec) :=
  match dfind? section_lines "[ atoms ]" with
  | none => []
  | some atoms_start =>
      (readAtomLines (minAfter atoms_start section_lines none) (atoms_start + 1)
        (lines.drop atoms_start) []).getD []

/-! ## Error records and the context correlator (`identify_atoms_from_context`) -/

/-- One structured error record (`extract_error_info` output), together with
the fields later written into the same dictionary by the correlator and the
orchestrating caller. -/
structure ErrorRec where
  error_num : Nat := 0
  line_number : Nat
  error_msg : String := ""
  «section» : Option String := none
  atoms : List Int := []
  atom_names : List String := []
  residues : List String := []
  atom_types : List String := []
deriving DecidableEq, Repr

/-- The inner loop of section resolution in `identify_atoms_from_context`:
does some indexed section start after `start` but still at or before the error
line `n`? -/
def laterSectionHit (section_lines : List (String × Nat)) (start n : Nat) : Bool :=
  section_lines.any (fun p => decide (start < p.2) && decide (p.2 ≤ n))

/-- The outer loop of section resolution: the first indexed section (in
dictionary order) starting at or before the error line such that no
later-starting section also starts at or before it. -/
def findSectionGo (section_lines : List (String × Nat)) (n : Nat) :
    List (String × Nat) → Option String
  | [] => none
  | (sec, start) :: rest =>
      if start ≤ n ∧ ¬ laterSectionHit section_lines start n then some sec
      else findSectionGo section_lines n rest

/-- Section resolution of `identify_atoms_from_context`. -/
def findErrorSection (section_lines : List (String × Nat)) (n : Nat) : Option String :=
  findSectionGo section_lines n section_lines

/-- Leading-token extraction at arity 2 (`[ bonds ]` / `[ pairs ]`). -/
def extract2 : List String → Option (List Int)
  | t0 :: t1 :: _ =>
      match pyInt? t0, pyInt? t1 with
      | some a, some b => some [a, b]
      | _, _ => none
  | _ => some []

/-- Leading-token extraction at arity 3 (`[ angles ]`). -/
def extract3 : List String → Option (List Int)
  | t0 :: t1 :: t2 :: _ =>
      match pyInt? t0, pyInt? t1, pyInt? t2 with
      | some a, some b, some c => some [a, b, c]
      | _, _, _ => none
  | _ => some []

/-- Leading-token extraction at arity 4 (proper/improper dihedrals). -/
def extract4 : List String → Option (List Int)
  | t0 :: t1 :: t2 :: t3 :: _ =>
      match pyInt? t0, pyInt? t1, pyInt? t2, pyInt? t3 with
      | some a, some b, some c, some d => some [a, b, c, d]
      | _, _, _, _ => none
  | _ => some []

/-- Atom-index extraction from the error line's tokens, by owning section
(`identify_atoms_from_context`); a line with fewer tokens than the section's
arity yields the empty list, a non-integer token yields `none` (the `int()`
exception); a section with no extraction branch leaves `atoms = []`. -/
def extractAtoms (sec : String) (tokens : List String) : Option (List Int) :=
  if sec = "[ bonds ]" then extract2 tokens
  else if sec = "[ pairs ]" then extract2 tokens
  else if sec = "[ angles ]" then extract3 tokens
  else if sec = "[ proper dihedrals ]" ∨ sec = "[ improper dihedrals ]" then extract4 tokens
  else some []

/-- The resolution loop of `identify_atoms_from_context`: for each atom index
the stored name / `residue+resnr` label / type, or the `Unknown` placeholders
when the index is not in the table. -/
def resolveLoop (atom_info : List (Int × AtomRec)) :
    List Int → List String × List String × List String
  | [] => ([], [], [])
  | a :: rest =>
      let r := resolveLoop atom_info rest
      match dfind? atom_info a with
      | some info =>
          (info.name :: r.1, (info.residue ++ info.resnr) :: r.2.1, info.type :: r.2.2)
      | none =>
          (("Unknown-" ++ toString a) :: r.1, "Unknown" :: r.2.1, "Unknown" :: r.2.2)

/-- The `if atom_info:` guard around the resolution loop: a `None` or empty
table produces three empty lists. -/
def resolveAtoms (atom_info : List (Int × AtomRec)) (atoms : List Int) :
    List String × List String × List String :=
  if atom_info = [] then ([], [], [])
  else resolveLoop atom_info atoms

/-- `identify_atoms_from_context` from src/error_finding.py: returns the
(possibly enriched) error record together with the four result lists.  Every
Python `return [], [], [], []` path — no owning section, error line missing
from the file, or `int()` raising inside the `try` — appears as an empty
4-tuple; the `error['section']` write happens as soon as resolution succeeds. -/
def identify_atoms_from_context (error : ErrorRec) (section_lines : List (String × Nat))
    (lines : List String) (atom_info : List (Int × AtomRec)) :
    ErrorRec × (List Int × List String × List String × List String) :=
  match findErrorSection section_lines error.line_number with
  | none => (error, ([], [], [], []))
  | some error_section =>
      let error' := { error with «section» := some error_section }
      if error.line_number = 0 then (error', ([], [], [], []))
      else
        match lines.get? (error.line_number - 1) with
        | none => (error', ([], [], [], []))
        | some raw =>
            match extractAtoms error_section (pySplit (pyStrip raw)) with
            | none => (error', ([], [], [], []))
            | some atoms => (error', (atoms, resolveAtoms atom_info atoms))

/-! ## Dummy parameter synthesizer (src/dummies.py) -/

/-- `generate_angle_dummy`: the canonical placeholder angle-type row, `none`
unless exactly 3 atom types are given.  Constants theta0 = 120.0,
ktheta = 200.0, ub0 = 0.0, kub = 0.0, function type 1. -/
def generate_angle_dummy : List String → Option String
  | [a, b, c] =>
      some (rjust a 8 ++ " " ++ rjust b 8 ++ " " ++ rjust c 8 ++ "     1   " ++
        fmtFixed 120 10 6 ++ "   " ++ fmtFixed 200 10 6 ++ "   " ++
        fmtFixed 0 10 8 ++ "   " ++ fmtFixed 0 10 2 ++ " ;")
  | _ => none

/-- `generate_dihedral_dummy`: the canonical placeholder dihedral-type row,
`none` unless exactly 4 atom types are given.  Constants phi0 = 0.0,
kphi = 0.0, mult = 1, function type 9. -/
def generate_dihedral_dummy : List String → Option String
  | [a, b, c, d] =>
      some (rjust a 8 ++ " " ++ rjust b 8 ++ " " ++ rjust c 8 ++ " " ++ rjust d 8 ++
        "\t\t9     " ++ fmtFixed 0 10 6 ++ "     " ++ fmtFixed 0 10 6 ++ "     " ++
        "1" ++ " ;")
  | _ => none

/-- Lexicographic comparison of character lists by code point, the order
Python's `sorted` uses on strings. -/
def charListLe : List Char → List Char → Bool
  | [], _ => true
  | _ :: _, [] => false
  | c :: cs, d :: ds => if c < d then true else if d < c then false else charListLe cs ds

/-- Python string comparison `a <= b`: lexicographic by code point. -/
def pyStrLe (a b : String) : Bool :=
  charListLe a.data b.data

/-- Python `set.add` on a set represented as a duplicate-free list; the
insertion position is irrelevant because the set is sorted before output. -/
def setAdd (x : String) (s : List String) : List String :=
  if x ∈ s then s else x :: s

/-- The mutable state of the `process_errors_for_dummies` loop: the two
accumulating sets and the statistics counters. -/
structure DummyState where
  angle_dummies : List String := []
  dihedral_dummies : List String := []
  processed_errors : Nat := 0
  skipped_no_atom_types : Nat := 0
  skipped_unknown_error : Nat := 0
  skipped_wrong_atom_count : Nat := 0
deriving DecidableEq, Repr

/-- The angle-classification test of `process_errors_for_dummies`: message
contains "no default u-b types" or "angle type" (lowercased), or the resolved
section name contains "angle". -/
def angleCond (error : ErrorRec) : Bool :=
  strContains (pyLower error.error_msg) "no default u-b types" ||
  strContains (pyLower error.error_msg) "angle type" ||
  (match error.«section» with
   | some s => strContains (pyLower s) "angle"
   | none => false)

/-- The dihedral-classification test of `process_errors_for_dummies`: message
contains "no default dihedral type" or "dihedral type" (lowercased), or the
resolved section name contains "dihedral". -/
def dihedralCond (error : ErrorRec) : Bool :=
  strContains (pyLower error.error_msg) "no default dihedral type" ||
  strContains (pyLower error.error_msg) "dihedral type" ||
  (match error.«section» with
   | some s => strContains (pyLower s) "dihedral"
   | none => false)

/-- The body of the `for error in errors` loop of
`process_errors_for_dummies`: skip records without atom types, then classify
as angle, else dihedral, else unrecognized, enforcing arity 3 / 4 inside the
chosen branch. -/
def processError (st : DummyState) (error : ErrorRec) : DummyState :=
  if error.atom_types = [] then
    { st with skipped_no_atom_types := st.skipped_no_atom_types + 1 }
  else if angleCond error then
    if error.atom_types.length = 3 then
      match generate_angle_dummy error.atom_types with
      | some dummy =>
          { st with angle_dummies := setAdd dummy st.angle_dummies,
                    processed_errors := st.processed_errors + 1 }
      | none =>
          { st with skipped_wrong_atom_count := st.skipped_wrong_atom_count + 1 }
    else { st with skipped_wrong_atom_count := st.skipped_wrong_atom_count + 1 }
  else if dihedralCond error then
    if error.atom_types.length = 4 then
      match generate_dihedral_dummy error.atom_types with
      | some dummy =>
          { st with dihedral_dummies := setAdd dummy st.dihedral_dummies,
                    processed_errors := st.processed_errors + 1 }
      | none =>
          { st with skipped_wrong_atom_count := st.skipped_wrong_atom_count + 1 }
    else { st with skipped_wrong_atom_count := st.skipped_wrong_atom_count + 1 }
  else { st with skipped_unknown_error := st.skipped_unknown_error + 1 }

/-- The return value of `process_errors_for_dummies`
(`{'angles': …, 'dihedrals': …}`). -/
structure DummiesOut where
  angles : List String
  dihedrals : List String
deriving DecidableEq, Repr

/-- `process_errors_for_dummies` from src/dummies.py: fold the per-record
classification over the error sequence, then return both deduplicated sets
sorted lexicographically (`sorted(list(...))`). -/
def process_errors_for_dummies (errors : List ErrorRec) : DummiesOut :=
  let st := errors.foldl processError {}
  ⟨List.insertionSort (fun a b => pyStrLe a b = true) st.angle_dummies,
   List.insertionSort (fun a b => pyStrLe a b = true) st.dihedral_dummies⟩

/-! ## Specification-side descriptions used by the claim theorems -/

/-- The line number (counting from `i`) of the last line whose stripped,
lowercased text equals `sec`. -/
def lastMatchLine (sec : String) : Nat → List String → Option Nat
  | _, [] => none
  | i, l :: rest =>
      (lastMatchLine sec (i + 1) rest) <|> (if pyLower (pyStrip l) = sec then some i else none)

/-- The line number (counting from `i`) of the `n`-th occurrence (`n ≥ 1`) of
the `[ dihedrals ]` header, compared case-insensitively after stripping. -/
def nthDihedralLine (n : Nat) : Nat → List String → Option Nat
  | _, [] => none
  | i, l :: rest =>
      if pyLower (pyStrip l) = "[ dihedrals ]" then
        if n = 1 then some i else nthDihedralLine (n - 1) (i + 1) rest
      else nthDihedralLine n (i + 1) rest

/-- Claim-side description of the atoms-section read loop, acting on exactly
the lines of the section's span, with no line numbering and no end test. -/
def parseSpan : List String → List (Int × AtomRec) → Option (List (Int × AtomRec))
  | [], acc => some acc
  | l :: rest, acc =>
      let l' := pyStrip l
      if l' = "" ∨ pyStartsWith l' ";" then parseSpan rest acc
      else
        match pySplit l' with
        | t0 :: t1 :: t2 :: t3 :: t4 :: _ =>
            match pyInt? t0 with
            | none => none
            | some atom_num => parseSpan rest (dinsert atom_num ⟨t4, t1, t2, t3⟩ acc)
        | _ => parseSpan rest acc

/-- The span of physical lines strictly between the atoms-section header line
`s` and the exclusive end line (the minimal other section start beyond `s`),
running to end of file when no section starts after `s`. -/
def atomSpan (lines : List String) (section_lines : List (String × Nat)) (s : Nat) :
    List String :=
  match minAfter s section_lines none with
  | some e => (lines.drop s).take (e - (s + 1))
  | none => lines.drop s

/-- A data line that makes `extract_atom_names` raise: not blank, not a
comment, at least 5 tokens, first token not an integer. -/
def badAtomLine (l : String) : Bool :=
  if pyStrip l = "" ∨ pyStartsWith (pyStrip l) ";" then false
  else
    match pySplit (pyStrip l) with
    | t0 :: _ :: _ :: _ :: _ :: _ => (pyInt? t0).isNone
    | _ => false

/-- The angle-placeholder row a single error record contributes in
`process_errors_for_dummies`, if any: atom types present, angle-classified,
arity exactly 3. -/
def genAngleRow? (e : ErrorRec) : Option String :=
  if e.atom_types = [] then none
  else if angleCond e then
    if e.atom_types.length = 3 then generate_angle_dummy e.atom_types else none
  else none

/-- The dihedral-placeholder row a single error record contributes in
`process_errors_for_dummies`, if any: atom types present, not angle-classified,
dihedral-classified, arity exactly 4. -/
def genDihedralRow? (e : ErrorRec) : Option String :=
  if e.atom_types = [] then none
  else if angleCond e then none
  else if dihedralCond e then
    if e.atom_types.length = 4 then generate_dihedral_dummy e.atom_types else none
  else none

/-- The end-to-end scenario topology of the specification: `[ angles ]` at
line 10, the error line 12 reading `5  7  9  3`. -/
def scenarioTopology : List String :=
  ["", "", "", "", "", "", "", "", "", "[ angles ]", "; ai aj ak", "5  7  9  3"]

/-- The end-to-end scenario's AtomInfo table: atoms 5/7/9 typed CA/CB/CC. -/
def scenarioAtomInfo : List (Int × AtomRec) :=
  [(5, ⟨"C1", "CA", "1", "RES"⟩), (7, ⟨"C2", "CB", "1", "RES"⟩), (9, ⟨"C3", "CC", "1", "RES"⟩)]

/-- The end-to-end scenario's error record, as parsed from the diagnostics. -/
def scenarioError : ErrorRec :=
  { error_num := 1, line_number := 12, error_msg := "No default U-B types" }

/-- The end-to-end scenario's record as main.py enriches it from the
correlator output before synthesis. -/
def scenarioEnriched : ErrorRec :=
  { (identify_atoms_from_context scenarioError (get_context_from_topology scenarioTopology)
        scenarioTopology scenarioAtomInfo).1 with
    atoms := (identify_atoms_from_context scenarioError (get_context_from_topology scenarioTopology)
        scenarioTopology scenarioAtomInfo).2.1,
    atom_names := (identify_atoms_from_context scenarioError
        (get_context_from_topology scenarioTopology) scenarioTopology scenarioAtomInfo).2.2.1,
    residues := (identify_atoms_from_context scenarioError
        (get_context_from_topology scenarioTopology) scenarioTopology scenarioAtomInfo).2.2.2.1,
    atom_types := (identify_atoms_from_context scenarioError
        (get_context_from_topology scenarioTopology) scenarioTopology scenarioAtomInfo).2.2.2.2 }

/-! ## Dictionary lemmas -/

theorem dfind?_dinsert_self {α β : Type} [DecidableEq α] (d : List (α × β)) (k : α) (v : β) :
    dfind? (dinsert k v d) k = some v := by
  induction d with
  | nil => simp [dinsert, dfind?, List.find?]
  | cons p rest ih =>
      by_cases h : p.1 = k
      · simp [dinsert, h, dfind?, List.find?]
      · simpa [dinsert, h, dfind?, List.find?] using ih

theorem dfind?_dinsert_ne {α β : Type} [DecidableEq α] (d : List (α × β)) {k k' : α} (v : β)
    (h : k' ≠ k) : dfind? (dinsert k v d) k' = dfind? d k' := by
  induction d with
  | nil => simp [dinsert, dfind?, List.find?, Ne.symm h]
  | cons p rest ih =>
      by_cases hp : p.1 = k
      · subst hp
        simp [dinsert, dfind?, List.find?, Ne.symm h]
      · by_cases hq : p.1 = k'
        · simp [dinsert, hp, dfind?, List.find?, hq, h]
        · simpa [dinsert, hp, dfind?, List.find?, hq] using ih

/-! ## Section-indexer lemmas -/

theorem pyLower_atoms : pyLower "[ atoms ]" = "[ atoms ]" := by decide
theorem pyLower_bonds : pyLower "[ bonds ]" = "[ bonds ]" := by decide
theorem pyLower_pairs : pyLower "[ pairs ]" = "[ pairs ]" := by decide
theorem pyLower_angles : pyLower "[ angles ]" = "[ angles ]" := by decide
theorem pyLower_dihedrals : pyLower "[ dihedrals ]" = "[ dihedrals ]" := by decide

theorem matchSections_lookup_nondihedral (i : Nat) (l : String)
    (counts sl : List (String × Nat)) (sec : String)
    (hsec : sec = "[ atoms ]" ∨ sec = "[ bonds ]" ∨ sec = "[ pairs ]" ∨ sec = "[ angles ]") :
    dfind? (matchSections i l sectionHeaders (counts, sl)).2 sec =
      if pyLower l = sec then some i else dfind? sl sec := by
  rcases hsec with h | h | h | h <;> subst h <;>
  · simp only [sectionHeaders, matchSections, pyLower_atoms, pyLower_bonds, pyLower_pairs,
      pyLower_angles, pyLower_dihedrals]
    by_cases h1 : pyLower l = "[ atoms ]"
    · simp [h1]
      first
      | rfl
      | exact dfind?_dinsert_self sl _ i
      | exact dfind?_dinsert_ne sl i (by decide)
    · simp only [if_neg h1]
      by_cases h2 : pyLower l = "[ bonds ]"
      · simp [h2]
        first
        | rfl
        | exact dfind?_dinsert_self sl _ i
        | exact dfind?_dinsert_ne sl i (by decide)
      · simp only [if_neg h2]
        by_cases h3 : pyLower l = "[ pairs ]"
        · simp [h3]
          first
          | rfl
          | exact dfind?_dinsert_self sl _ i
          | exact dfind?_dinsert_ne sl i (by decide)
        · simp only [if_neg h3]
          by_cases h4 : pyLower l = "[ angles ]"
          · simp [h4]
            first
            | rfl
            | exact dfind?_dinsert_self sl _ i
            | exact dfind?_dinsert_ne sl i (by decide)
          · simp only [if_neg h4]
            by_cases h5 : pyLower l = "[ dihedrals ]"
            · simp [h5]
              split_ifs <;>
                first
                | rfl
                | exact dfind?_dinsert_self sl _ i
                | exact dfind?_dinsert_ne sl i (by decide)
                | (exfalso; omega)
            · simp [h1, h2, h3, h4, h5]

theorem matchSections_dihedral_count (i : Nat) (l : String)
    (counts sl : List (String × Nat)) :
    dfind? (matchSections i l sectionHeaders (counts, sl)).1 "[ dihedrals ]" =
      if pyLower l = "[ dihedrals ]" then some ((dfind? counts "[ dihedrals ]").getD 0 + 1)
      else dfind? counts "[ dihedrals ]" := by
  simp only [sectionHeaders, matchSections, pyLower_atoms, pyLower_bonds, pyLower_pairs,
    pyLower_angles, pyLower_dihedrals]
  by_cases h1 : pyLower l = "[ atoms ]"
  · simp [h1]
    exact dfind?_dinsert_ne counts _ (by decide)
  · simp only [if_neg h1]
    by_cases h2 : pyLower l = "[ bonds ]"
    · simp [h2]
      exact dfind?_dinsert_ne counts _ (by decide)
    · simp only [if_neg h2]
      by_cases h3 : pyLower l = "[ pairs ]"
      · simp [h3]
        exact dfind?_dinsert_ne counts _ (by decide)
      · simp only [if_neg h3]
        by_cases h4 : pyLower l = "[ angles ]"
        · simp [h4]
          exact dfind?_dinsert_ne counts _ (by decide)
        · simp only [if_neg h4]
          by_cases h5 : pyLower l = "[ dihedrals ]"
          · simp [h5]
            exact dfind?_dinsert_self counts _ _
          · simp [h1, h2, h3, h4, h5]

theorem matchSections_lookup_proper (i : Nat) (l : String)
    (counts sl : List (String × Nat)) :
    dfind? (matchSections i l sectionHeaders (counts, sl)).2 "[ proper dihedrals ]" =
      if pyLower l = "[ dihedrals ]" ∧ (dfind? counts "[ dihedrals ]").getD 0 = 0 then some i
      else dfind? sl "[ proper dihedrals ]" := by
  simp only [sectionHeaders, matchSections, pyLower_atoms, pyLower_bonds, pyLower_pairs,
    pyLower_angles, pyLower_dihedrals]
  by_cases h1 : pyLower l = "[ atoms ]"
  · simp [h1]
    exact dfind?_dinsert_ne sl i (by decide)
  · simp only [if_neg h1]
    by_cases h2 : pyLower l = "[ bonds ]"
    · simp [h2]
      exact dfind?_dinsert_ne sl i (by decide)
    · simp only [if_neg h2]
      by_cases h3 : pyLower l = "[ pairs ]"
      · simp [h3]
        exact dfind?_dinsert_ne sl i (by decide)
      · simp only [if_neg h3]
        by_cases h4 : pyLower l = "[ angles ]"
        · simp [h4]
          exact dfind?_dinsert_ne sl i (by decide)
        · simp only [if_neg h4]
          by_cases h5 : pyLower l = "[ dihedrals ]"
          · simp [h5]
            split_ifs <;>
              first
              | rfl
              | exact dfind?_dinsert_self sl _ i
              | exact dfind?_dinsert_ne sl i (by decide)
              | (exfalso; omega)
          · simp [h1, h2, h3, h4, h5]

theorem matchSections_lookup_improper (i : Nat) (l : String)
    (counts sl : List (String × Nat)) :
    dfind? (matchSections i l sectionHeaders (counts, sl)).2 "[ improper dihedrals ]" =
      if pyLower l = "[ dihedrals ]" ∧ (dfind? counts "[ dihedrals ]").getD 0 = 1 then some i
      else dfind? sl "[ improper dihedrals ]" := by
  simp only [sectionHeaders, matchSections, pyLower_atoms, pyLower_bonds, pyLower_pairs,
    pyLower_angles, pyLower_dihedrals]
  by_cases h1 : pyLower l = "[ atoms ]"
  · simp [h1]
    exact dfind?_dinsert_ne sl i (by decide)
  · simp only [if_neg h1]
    by_cases h2 : pyLower l = "[ bonds ]"
    · simp [h2]
      exact dfind?_dinsert_ne sl i (by decide)
    · simp only [if_neg h2]
      by_cases h3 : pyLower l = "[ pairs ]"
      · simp [h3]
        exact dfind?_dinsert_ne sl i (by decide)
      · simp only [if_neg h3]
        by_cases h4 : pyLower l = "[ angles ]"
        · simp [h4]
          exact dfind?_dinsert_ne sl i (by decide)
        · simp only [if_neg h4]
          by_cases h5 : pyLower l = "[ dihedrals ]"
          · simp [h5]
            split_ifs <;>
              first
              | rfl
              | exact dfind?_dinsert_self sl _ i
              | exact dfind?_dinsert_ne sl i (by decide)
              | (exfalso; omega)
          · simp [h1, h2, h3, h4, h5]

theorem indexLines_lookup_nondihedral (sec : String)
    (hsec : sec = "[ atoms ]" ∨ sec = "[ bonds ]" ∨ sec = "[ pairs ]" ∨ sec = "[ angles ]") :
    ∀ (lines : List String) (i : Nat) (counts sl : List (String × Nat)),
      dfind? (indexLines i lines (counts, sl)).2 sec =
        Option.or (lastMatchLine sec i lines) (dfind? sl sec) := by
  intro lines
  induction lines with
  | nil => intro i counts sl; simp [indexLines, lastMatchLine]
  | cons l rest ih =>
      intro i counts sl
      have hstep := ih (i + 1) (matchSections i (pyStrip l) sectionHeaders (counts, sl)).1
        (matchSections i (pyStrip l) sectionHeaders (counts, sl)).2
      rw [Prod.mk.eta] at hstep
      rw [indexLines, hstep, matchSections_lookup_nondihedral i (pyStrip l) counts sl sec hsec,
        lastMatchLine]
      cases hlm : lastMatchLine sec (i + 1) rest <;>
        by_cases hc : pyLower (pyStrip l) = sec <;>
          simp [hlm, hc]

theorem indexLines_dihedral :
    ∀ (lines : List String) (i k : Nat) (counts sl : List (String × Nat)),
      (dfind? counts "[ dihedrals ]").getD 0 = k →
        dfind? (indexLines i lines (counts, sl)).2 "[ proper dihedrals ]" =
          Option.or (if k = 0 then nthDihedralLine 1 i lines else none)
            (dfind? sl "[ proper dihedrals ]") ∧
        dfind? (indexLines i lines (counts, sl)).2 "[ improper dihedrals ]" =
          Option.or (if k ≤ 1 then nthDihedralLine (2 - k) i lines else none)
            (dfind? sl "[ improper dihedrals ]") := by
  intro lines
  induction lines with
  | nil =>
      intro i k counts sl hk
      constructor <;> split_ifs <;> simp [indexLines, nthDihedralLine]
  | cons l rest ih =>
      intro i k counts sl hk
      by_cases hc : pyLower (pyStrip l) = "[ dihedrals ]"
      · have hcount : (dfind? (matchSections i (pyStrip l) sectionHeaders (counts, sl)).1
            "[ dihedrals ]").getD 0 = k + 1 := by
          rw [matchSections_dihedral_count, if_pos hc, hk]
          rfl
        have hstep := ih (i + 1) (k + 1) (matchSections i (pyStrip l) sectionHeaders (counts, sl)).1
          (matchSections i (pyStrip l) sectionHeaders (counts, sl)).2 hcount
        rw [Prod.mk.eta] at hstep
        have hprop := matchSections_lookup_proper i (pyStrip l) counts sl
        have himp := matchSections_lookup_improper i (pyStrip l) counts sl
        rw [hk] at hprop himp
        constructor
        · rw [indexLines, hstep.1, hprop]
          by_cases hk0 : k = 0
          · subst hk0
            simp [nthDihedralLine, hc]
          · simp [hk0, hc, nthDihedralLine]
        · rw [indexLines, hstep.2, himp]
          by_cases hk0 : k = 0
          · subst hk0
            simp [nthDihedralLine, hc]
          · by_cases hk1 : k = 1
            · subst hk1
              simp [nthDihedralLine, hc]
            · have hk2 : ¬ k ≤ 1 := by omega
              have hk21 : ¬ k + 1 ≤ 1 := by omega
              simp [hk1, hc, hk2, hk21]
      · have hcount : (dfind? (matchSections i (pyStrip l) sectionHeaders (counts, sl)).1
            "[ dihedrals ]").getD 0 = k := by
          rw [matchSections_dihedral_count, if_neg hc, hk]
        have hstep := ih (i + 1) k (matchSections i (pyStrip l) sectionHeaders (counts, sl)).1
          (matchSections i (pyStrip l) sectionHeaders (counts, sl)).2 hcount
        rw [Prod.mk.eta] at hstep
        have hprop := matchSections_lookup_proper i (pyStrip l) counts sl
        have himp := matchSections_lookup_improper i (pyStrip l) counts sl
        constructor
        · rw [indexLines, hstep.1, hprop]
          simp [hc, nthDihedralLine]
        · rw [indexLines, hstep.2, himp]
          simp [hc, nthDihedralLine]

/-! ## Claim C1 -/

/-- C1 counterexample: on a topology whose `[ atoms ]` header occurs at lines 1
and 3, `get_context_from_topology` records line 3, not the first occurrence's
line 1 — so the claim that the first occurrence wins is false. -/
theorem index_sections_not_first_occurrence :
    dfind? (get_context_from_topology ["[ atoms ]", "x", "[ atoms ]"]) "[ atoms ]" = some 3 ∧
    dfind? (get_context_from_topology ["[ atoms ]", "x", "[ atoms ]"]) "[ atoms ]" ≠ some 1 := by
  constructor
  · rfl
  · decide

/-- C1 (amended): for every recognized header except `[ dihedrals ]` and every
topology text, `get_context_from_topology` records the line number of the LAST
occurrence of that header — each later occurrence overwrites the recorded
line — and leaves the header unmapped when it never occurs. -/
theorem index_sections_last_occurrence (lines : List String) (sec : String)
    (hsec : sec = "[ atoms ]" ∨ sec = "[ bonds ]" ∨ sec = "[ pairs ]" ∨ sec = "[ angles ]") :
    dfind? (get_context_from_topology lines) sec = lastMatchLine sec 1 lines := by
  have h := indexLines_lookup_nondihedral sec hsec lines 1 (sectionHeaders.map (fun s => (s, 0))) []
  unfold get_context_from_topology
  rw [h]
  simp [dfind?]

/-- Witness for the amended C1: on the two-`[ atoms ]` topology the recorded
line is the last occurrence's. -/
theorem index_sections_last_occurrence_witness :
    ("[ atoms ]" = "[ atoms ]" ∨ "[ atoms ]" = "[ bonds ]" ∨ "[ atoms ]" = "[ pairs ]" ∨
        "[ atoms ]" = "[ angles ]") ∧
    dfind? (get_context_from_topology ["[ atoms ]", "x", "[ atoms ]"]) "[ atoms ]" =
      lastMatchLine "[ atoms ]" 1 ["[ atoms ]", "x", "[ atoms ]"] :=
  ⟨Or.inl rfl, index_sections_last_occurrence _ _ (Or.inl rfl)⟩

/-! ## Claim C2 -/

/-- C2: for every topology text, `get_context_from_topology` maps
`[ proper dihedrals ]` to the line of the first occurrence of the
`[ dihedrals ]` header (compared case-insensitively after stripping) and
`[ improper dihedrals ]` to the line of the second occurrence; third and later
occurrences leave both entries unchanged, and a missing occurrence leaves the
corresponding entry absent. -/
theorem dihedrals_proper_improper_by_occurrence (lines : List String) :
    dfind? (get_context_from_topology lines) "[ proper dihedrals ]" = nthDihedralLine 1 1 lines ∧
    dfind? (get_context_from_topology lines) "[ improper dihedrals ]" = nthDihedralLine 2 1 lines := by
  have h := indexLines_dihedral lines 1 0 (sectionHeaders.map (fun s => (s, 0))) [] (by rfl)
  unfold get_context_from_topology
  constructor
  · rw [h.1]
    simp [dfind?]
  · rw [h.2]
    simp [dfind?]

/-! ## Atom-table lemmas -/

theorem readAtomLines_none :
    ∀ (ls : List String) (n : Nat) (acc : List (Int × AtomRec)),
      readAtomLines none n ls acc = parseSpan ls acc := by
  intro ls
  induction ls with
  | nil => intro n acc; rfl
  | cons l rest ih =>
      intro n acc
      rw [readAtomLines, parseSpan]
      simp only [atEnd, Bool.false_eq_true, if_false]
      split_ifs with hb
      · exact ih (n + 1) acc
      · split
        · split
          · rfl
          · exact ih (n + 1) _
        · exact ih (n + 1) acc

theorem readAtomLines_some (e : Nat) :
    ∀ (ls : List String) (n : Nat) (acc : List (Int × AtomRec)),
      readAtomLines (some e) n ls acc = parseSpan (ls.take (e - n)) acc := by
  intro ls
  induction ls with
  | nil => intro n acc; simp [readAtomLines, parseSpan]
  | cons l rest ih =>
      intro n acc
      by_cases h : e ≤ n
      · have h0 : e - n = 0 := by omega
        rw [readAtomLines]
        simp [atEnd, h, h0, parseSpan]
      · have h2 : e - n = (e - (n + 1)) + 1 := by omega
        rw [h2, List.take_succ_cons, readAtomLines, parseSpan]
        have hend : atEnd (some e) n = false := by
          simp only [atEnd, decide_eq_false_iff_not]
          omega
        rw [hend]
        simp only [Bool.false_eq_true, if_false]
        split_ifs with hb
        · exact ih (n + 1) acc
        · split
          · split
            · rfl
            · exact ih (n + 1) _
          · exact ih (n + 1) acc

theorem extract_eq_parseSpan (lines : List String) (section_lines : List (String × Nat))
    (s : Nat) (hs : dfind? section_lines "[ atoms ]" = some s) :
    extract_atom_names lines section_lines =
      (parseSpan (atomSpan lines section_lines s) []).getD [] := by
  have h1 : extract_atom_names lines section_lines =
      (readAtomLines (minAfter s section_lines none) (s + 1) (lines.drop s) []).getD [] := by
    rw [extract_atom_names, hs]
  rw [h1, atomSpan]
  cases he : minAfter s section_lines none with
  | none => rw [readAtomLines_none]
  | some e => rw [readAtomLines_some]

theorem parseSpan_skip_blank :
    ∀ (pre : List String) (l : String) (post : List String) (acc : List (Int × AtomRec)),
      (pyStrip l = "" ∨ pyStartsWith (pyStrip l) ";") →
        parseSpan (pre ++ l :: post) acc = parseSpan (pre ++ post) acc := by
  intro pre
  induction pre with
  | nil =>
      intro l post acc hb
      rw [List.nil_append, List.nil_append, parseSpan, if_pos hb]
  | cons p pre ih =>
      intro l post acc hb
      rw [List.cons_append, List.cons_append, parseSpan, parseSpan]
      split_ifs with hp
      · exact ih l post acc hb
      · split
        · split
          · rfl
          · exact ih l post _ hb
        · exact ih l post acc hb

theorem parseSpan_bad_none :
    ∀ (ls : List String) (acc : List (Int × AtomRec)),
      (∃ l ∈ ls, badAtomLine l = true) → parseSpan ls acc = none := by
  intro ls
  induction ls with
  | nil => intro acc h; simp at h
  | cons l rest ih =>
      intro acc h
      rcases h with ⟨x, hx, hbad⟩
      rcases List.mem_cons.mp hx with hx | hx
      · subst hx
        rw [badAtomLine] at hbad
        by_cases hb : pyStrip x = "" ∨ pyStartsWith (pyStrip x) ";"
        · rw [if_pos hb] at hbad
          exact absurd hbad (by simp)
        · rw [if_neg hb] at hbad
          rcases htk : pySplit (pyStrip x) with _ | ⟨t0, _ | ⟨t1, _ | ⟨t2, _ | ⟨t3, _ | ⟨t4, tl⟩⟩⟩⟩⟩ <;>
            rw [htk] at hbad <;> simp at hbad
          rw [parseSpan, if_neg hb, htk]
          simp [hbad]
      · rw [parseSpan]
        split_ifs with hb
        · exact ih acc ⟨x, hx, hbad⟩
        · split
          · split
            · rfl
            · exact ih _ ⟨x, hx, hbad⟩
          · exact ih acc ⟨x, hx, hbad⟩

/-! ## Claim C8 -/

/-- C8: `extract_atom_names` processes exactly the physical lines strictly
between the Atoms start line and the exclusive end line — the minimum other
indexed start line strictly beyond the Atoms start, or end of file when none
exists — and blank lines and `;` comment lines inside that span are skipped
without affecting the result; an Atoms section absent from the index yields
the empty table without failure. -/
theorem atom_table_span (lines : List String) (section_lines : List (String × Nat)) :
    (dfind? section_lines "[ atoms ]" = none → extract_atom_names lines section_lines = []) ∧
    (∀ s, dfind? section_lines "[ atoms ]" = some s →
      extract_atom_names lines section_lines =
        (parseSpan (atomSpan lines section_lines s) []).getD []) ∧
    (∀ (pre : List String) (l : String) (post : List String) (acc : List (Int × AtomRec)),
      (pyStrip l = "" ∨ pyStartsWith (pyStrip l) ";") →
        parseSpan (pre ++ l :: post) acc = parseSpan (pre ++ post) acc) := by
  refine ⟨fun h => ?_, fun s hs => extract_eq_parseSpan lines section_lines s hs,
    fun pre l post acc hb => parseSpan_skip_blank pre l post acc hb⟩
  rw [extract_atom_names, h]

/-- Witness for C8 at a concrete topology whose atoms span is cut off by the
`[ bonds ]` section start. -/
theorem atom_table_span_witness :
    dfind? [("[ atoms ]", 1), ("[ bonds ]", 5)] "[ atoms ]" = some 1 ∧
    extract_atom_names
        ["[ atoms ]", "1 CT 1 RES C1 0 12", "; c", "2 CT 1 RES C2 0 12", "[ bonds ]", "9 9 9 9 9"]
        [("[ atoms ]", 1), ("[ bonds ]", 5)] =
      (parseSpan (atomSpan
        ["[ atoms ]", "1 CT 1 RES C1 0 12", "; c", "2 CT 1 RES C2 0 12", "[ bonds ]", "9 9 9 9 9"]
        [("[ atoms ]", 1), ("[ bonds ]", 5)] 1) []).getD [] :=
  ⟨rfl, (atom_table_span _ _).2.1 1 rfl⟩

/-! ## Claim C3 -/

/-- C3 counterexample: with a well-formed atom line followed by a malformed one
(first token `x`, 7 tokens), `extract_atom_names` returns the empty table —
the entry for the well-formed atom 1 is lost rather than the malformed line
being skipped in isolation; without the malformed line the entry is present. -/
theorem atom_table_bad_line_cex :
    extract_atom_names ["[ atoms ]", "1 CT 1 RES C1 0.1 12", "x CT 1 RES C2 0.1 12"]
        [("[ atoms ]", 1)] = [] ∧
    dfind? (extract_atom_names ["[ atoms ]", "1 CT 1 RES C1 0.1 12"] [("[ atoms ]", 1)]) 1 =
      some ⟨"C1", "CT", "1", "RES"⟩ :=
  ⟨rfl, rfl⟩

/-- C3 (amended): a data line in the Atoms span with at least 5 whitespace
tokens whose first token does not parse as an integer makes
`extract_atom_names` return the EMPTY table: the `int()` exception aborts the
whole extraction — all well-formed entries are lost — although the call itself
still does not raise. -/
theorem atom_table_bad_line_empties (lines : List String) (section_lines : List (String × Nat))
    (s : Nat) (hs : dfind? section_lines "[ atoms ]" = some s)
    (hbad : ∃ l ∈ atomSpan lines section_lines s, badAtomLine l = true) :
    extract_atom_names lines section_lines = [] := by
  rw [extract_eq_parseSpan lines section_lines s hs, parseSpan_bad_none _ _ hbad]
  rfl

/-- Witness for the amended C3 at the two-row table with a malformed second
row. -/
theorem atom_table_bad_line_empties_witness :
    dfind? [("[ atoms ]", 1)] "[ atoms ]" = some 1 ∧
    (∃ l ∈ atomSpan ["[ atoms ]", "1 CT 1 RES C1 0.1 12", "x CT 1 RES C2 0.1 12"]
        [("[ atoms ]", 1)] 1, badAtomLine l = true) ∧
    extract_atom_names ["[ atoms ]", "1 CT 1 RES C1 0.1 12", "x CT 1 RES C2 0.1 12"]
        [("[ atoms ]", 1)] = [] :=
  ⟨rfl, ⟨"x CT 1 RES C2 0.1 12", by decide, by decide⟩,
    atom_table_bad_line_empties _ _ 1 rfl ⟨"x CT 1 RES C2 0.1 12", by decide, by decide⟩⟩

/-! ## Correlator lemmas -/

theorem laterSectionHit_false_iff (full : List (String × Nat)) (start n : Nat) :
    laterSectionHit full start n = false ↔ ∀ p ∈ full, ¬(start < p.2 ∧ p.2 ≤ n) := by
  simp [laterSectionHit, List.any_eq_false]

theorem findSectionGo_none_iff (full : List (String × Nat)) (n : Nat) :
    ∀ l, findSectionGo full n l = none ↔
      ∀ p ∈ l, ¬(p.2 ≤ n ∧ laterSectionHit full p.2 n = false) := by
  intro l
  induction l with
  | nil => simp [findSectionGo]
  | cons a rest ih =>
      rw [findSectionGo]
      by_cases h : a.2 ≤ n ∧ ¬ laterSectionHit full a.2 n
      · simp only [if_pos h]
        constructor
        · intro hcon
          exact absurd hcon (by simp)
        · intro hall
          exact absurd ⟨h.1, by simpa using h.2⟩ (hall a (by simp))
      · simp only [if_neg h]
        rw [ih]
        constructor
        · intro hall p hp
          rcases List.mem_cons.mp hp with hp | hp
          · subst hp
            intro ⟨h1, h2⟩
            exact h ⟨h1, by simp [h2]⟩
          · exact hall p hp
        · intro hall p hp
          exact hall p (List.mem_cons_of_mem a hp)

theorem findSectionGo_some_spec (full : List (String × Nat)) (n : Nat) :
    ∀ l sec, findSectionGo full n l = some sec →
      ∃ start, (sec, start) ∈ l ∧ start ≤ n ∧ laterSectionHit full start n = false := by
  intro l
  induction l with
  | nil => intro sec h; exact absurd h (by simp [findSectionGo])
  | cons a rest ih =>
      intro sec h
      rw [findSectionGo] at h
      by_cases hc : a.2 ≤ n ∧ ¬ laterSectionHit full a.2 n
      · rw [if_pos hc] at h
        refine ⟨a.2, ?_, hc.1, by simpa using hc.2⟩
        have : sec = a.1 := by
          cases h
          rfl
        subst this
        simp
      · rw [if_neg hc] at h
        obtain ⟨start, hmem, hle, hlater⟩ := ih sec h
        exact ⟨start, List.mem_cons_of_mem a hmem, hle, hlater⟩

theorem exists_max_qualifying (n : Nat) :
    ∀ sl : List (String × Nat), (∃ p ∈ sl, p.2 ≤ n) →
      ∃ p ∈ sl, p.2 ≤ n ∧ ∀ q ∈ sl, q.2 ≤ n → q.2 ≤ p.2 := by
  intro sl
  induction sl with
  | nil => intro h; simp at h
  | cons a rest ih =>
      intro h
      by_cases ha : a.2 ≤ n
      · by_cases hr : ∃ p ∈ rest, p.2 ≤ n
        · obtain ⟨p, hp, hpn, hmax⟩ := ih hr
          rcases le_total a.2 p.2 with hc | hc
          · refine ⟨p, List.mem_cons_of_mem a hp, hpn, ?_⟩
            intro q hq hqn
            rcases List.mem_cons.mp hq with hq | hq
            · subst hq; exact hc
            · exact hmax q hq hqn
          · refine ⟨a, by simp, ha, ?_⟩
            intro q hq hqn
            rcases List.mem_cons.mp hq with hq | hq
            · subst hq; exact le_refl _
            · exact le_trans (hmax q hq hqn) hc
        · refine ⟨a, by simp, ha, ?_⟩
          intro q hq hqn
          rcases List.mem_cons.mp hq with hq | hq
          · subst hq; exact le_refl _
          · exact absurd ⟨q, hq, hqn⟩ hr
      · rcases h with ⟨p, hp, hpn⟩
        rcases List.mem_cons.mp hp with hp | hp
        · subst hp; exact absurd hpn ha
        · obtain ⟨q, hq, hqn, hmax⟩ := ih ⟨p, hp, hpn⟩
          refine ⟨q, List.mem_cons_of_mem a hq, hqn, ?_⟩
          intro r hr hrn
          rcases List.mem_cons.mp hr with hr | hr
          · subst hr; exact absurd hrn ha
          · exact hmax r hr hrn

theorem findErrorSection_isSome_of_qualifying (sl : List (String × Nat)) (n : Nat)
    (h : ∃ p ∈ sl, p.2 ≤ n) : (findErrorSection sl n).isSome := by
  obtain ⟨p, hp, hpn, hmax⟩ := exists_max_qualifying n sl h
  rw [findErrorSection]
  cases hfr : findSectionGo sl n sl with
  | some sec => simp
  | none =>
      exfalso
      have hall := (findSectionGo_none_iff sl n sl).mp hfr
      refine hall p hp ⟨hpn, ?_⟩
      rw [laterSectionHit_false_iff]
      intro q hq ⟨hq1, hq2⟩
      exact absurd (hmax q hq hq2) (by omega)

theorem findErrorSection_none_of_no_qualifying (sl : List (String × Nat)) (n : Nat)
    (h : ∀ p ∈ sl, ¬ p.2 ≤ n) : findErrorSection sl n = none := by
  rw [findErrorSection, findSectionGo_none_iff]
  intro p hp ⟨h1, _⟩
  exact h p hp h1

theorem identify_of_none (e : ErrorRec) (sl : List (String × Nat)) (lines : List String)
    (ai : List (Int × AtomRec)) (h : findErrorSection sl e.line_number = none) :
    identify_atoms_from_context e sl lines ai = (e, ([], [], [], [])) := by
  rw [identify_atoms_from_context, h]

theorem identify_of_some_noline (e : ErrorRec) (sl : List (String × Nat)) (lines : List String)
    (ai : List (Int × AtomRec)) (sec : String)
    (hs : findErrorSection sl e.line_number = some sec)
    (hline : e.line_number = 0 ∨ lines.get? (e.line_number - 1) = none) :
    identify_atoms_from_context e sl lines ai =
      ({ e with «section» := some sec }, ([], [], [], [])) := by
  rw [identify_atoms_from_context, hs]
  by_cases h0 : e.line_number = 0
  · simp [h0]
  · rcases hline with hl | hg
    · exact absurd hl h0
    · simp only [List.get?_eq_getElem?] at hg
      simp [h0, hg]

theorem identify_of_some_extract_none (e : ErrorRec) (sl : List (String × Nat))
    (lines : List String) (ai : List (Int × AtomRec)) (sec : String) (raw : String)
    (hs : findErrorSection sl e.line_number = some sec)
    (h0 : e.line_number ≠ 0)
    (hg : lines.get? (e.line_number - 1) = some raw)
    (hx : extractAtoms sec (pySplit (pyStrip raw)) = none) :
    identify_atoms_from_context e sl lines ai =
      ({ e with «section» := some sec }, ([], [], [], [])) := by
  rw [identify_atoms_from_context, hs]
  simp only [List.get?_eq_getElem?] at hg
  simp [h0, hg, hx]

theorem identify_of_some_success (e : ErrorRec) (sl : List (String × Nat))
    (lines : List String) (ai : List (Int × AtomRec)) (sec : String) (raw : String)
    (atoms : List Int)
    (hs : findErrorSection sl e.line_number = some sec)
    (h0 : e.line_number ≠ 0)
    (hg : lines.get? (e.line_number - 1) = some raw)
    (hx : extractAtoms sec (pySplit (pyStrip raw)) = some atoms) :
    identify_atoms_from_context e sl lines ai =
      ({ e with «section» := some sec }, (atoms, resolveAtoms ai atoms)) := by
  rw [identify_atoms_from_context, hs]
  simp only [List.get?_eq_getElem?] at hg
  simp [h0, hg, hx]

theorem resolveLoop_eq_maps (ai : List (Int × AtomRec)) :
    ∀ atoms : List Int,
      resolveLoop ai atoms =
        (atoms.map (fun a =>
            match dfind? ai a with
            | some info => info.name
            | none => "Unknown-" ++ toString a),
         atoms.map (fun a =>
            match dfind? ai a with
            | some info => info.residue ++ info.resnr
            | none => "Unknown"),
         atoms.map (fun a =>
            match dfind? ai a with
            | some info => info.type
            | none => "Unknown")) := by
  intro atoms
  induction atoms with
  | nil => rfl
  | cons a rest ih =>
      cases h : dfind? ai a <;> simp [resolveLoop, ih, h]

/-! ## Claim C7 -/

/-- C7: if no indexed section starts at or before the error's source line, or
the source line exceeds the number of topology lines, the correlator returns
four empty outputs (totality of the embedding models "without raising");
otherwise section resolution, when it returns a section, returns one whose
start line is the largest start line at or before the source line, and it does
return one whenever some section qualifies. -/
theorem correlator_section_resolution (e : ErrorRec) (section_lines : List (String × Nat))
    (lines : List String) (atom_info : List (Int × AtomRec)) :
    (((∀ p ∈ section_lines, ¬ p.2 ≤ e.line_number) ∨ lines.length < e.line_number) →
      (identify_atoms_from_context e section_lines lines atom_info).2 = ([], [], [], [])) ∧
    (∀ sec, findErrorSection section_lines e.line_number = some sec →
      ∃ start, (sec, start) ∈ section_lines ∧ start ≤ e.line_number ∧
        ∀ p ∈ section_lines, p.2 ≤ e.line_number → p.2 ≤ start) ∧
    ((∃ p ∈ section_lines, p.2 ≤ e.line_number) →
      (findErrorSection section_lines e.line_number).isSome) := by
  refine ⟨?_, ?_, findErrorSection_isSome_of_qualifying section_lines e.line_number⟩
  · intro h
    rcases h with h | h
    · rw [identify_of_none e section_lines lines atom_info
        (findErrorSection_none_of_no_qualifying _ _ h)]
    · cases hs : findErrorSection section_lines e.line_number with
      | none => rw [identify_of_none e section_lines lines atom_info hs]
      | some sec =>
          rw [identify_of_some_noline e section_lines lines atom_info sec hs
            (Or.inr (by rw [List.get?_eq_none]; omega))]
  · intro sec hs
    obtain ⟨start, hmem, hle, hlater⟩ :=
      findSectionGo_some_spec section_lines e.line_number section_lines sec hs
    refine ⟨start, hmem, hle, ?_⟩
    intro p hp hpn
    have hq := (laterSectionHit_false_iff section_lines start e.line_number).mp hlater p hp
    omega

/-- Witness for C7: an error one line past the end of a one-line topology
yields empty correlation results. -/
theorem correlator_section_resolution_witness :
    ((∀ p ∈ [("[ bonds ]", 1)], ¬ p.2 ≤ (5 : Nat)) ∨ (["[ bonds ]"] : List String).length < 5) ∧
    (identify_atoms_from_context { line_number := 5 } [("[ bonds ]", 1)] ["[ bonds ]"] []).2 =
      ([], [], [], []) :=
  ⟨Or.inr (by decide),
    (correlator_section_resolution { line_number := 5 } [("[ bonds ]", 1)] ["[ bonds ]"] []).1
      (Or.inr (by decide))⟩

/-! ## Claim C10 -/

/-- C10: the correlator writes the resolved section into the error record
before reading the topology line, so when resolution succeeds but correlation
then fails — the source line lies beyond the topology text, or a non-numeric
leading token makes `int()` raise — the four returned lists are empty while
the returned record nevertheless carries the section: the error path is not
atomic with respect to the record. -/
theorem correlator_enrichment_nonatomic (e : ErrorRec) (section_lines : List (String × Nat))
    (lines : List String) (atom_info : List (Int × AtomRec)) (sec : String)
    (hs : findErrorSection section_lines e.line_number = some sec)
    (hfail : lines.length < e.line_number ∨
      (∃ raw, e.line_number ≠ 0 ∧ lines.get? (e.line_number - 1) = some raw ∧
        extractAtoms sec (pySplit (pyStrip raw)) = none)) :
    (identify_atoms_from_context e section_lines lines atom_info).1.«section» = some sec ∧
    (identify_atoms_from_context e section_lines lines atom_info).2 = ([], [], [], []) := by
  rcases hfail with h | ⟨raw, h0, hg, hx⟩
  · rw [identify_of_some_noline e section_lines lines atom_info sec hs
      (Or.inr (by rw [List.get?_eq_none]; omega))]
    exact ⟨rfl, rfl⟩
  · rw [identify_of_some_extract_none e section_lines lines atom_info sec raw hs h0 hg hx]
    exact ⟨rfl, rfl⟩

/-- Witness for C10: error line 2 of a one-line topology resolves to
`[ bonds ]`, correlation fails, and the returned record carries the section
while the four outputs are empty. -/
theorem correlator_enrichment_nonatomic_witness :
    findErrorSection [("[ bonds ]", 1)] 2 = some "[ bonds ]" ∧
    (["[ bonds ]"] : List String).length < 2 ∧
    (identify_atoms_from_context { line_number := 2 } [("[ bonds ]", 1)]
        ["[ bonds ]"] []).1.«section» = some "[ bonds ]" ∧
    (identify_atoms_from_context { line_number := 2 } [("[ bonds ]", 1)] ["[ bonds ]"] []).2 =
      ([], [], [], []) :=
  ⟨rfl, by decide,
    correlator_enrichment_nonatomic { line_number := 2 } [("[ bonds ]", 1)] ["[ bonds ]"] []
      "[ bonds ]" rfl (Or.inl (by decide))⟩

/-! ## Claim C4 -/

/-- C4 counterexample: with a non-empty extracted atom list (`[1, 2]`) and an
EMPTY AtomInfo table, the correlator returns empty name/residue/type lists —
length 0, not the atom list's length 2, and no `Unknown` placeholders. -/
theorem correlator_empty_table_cex :
    (identify_atoms_from_context { line_number := 2 } [("[ bonds ]", 1)]
        ["[ bonds ]", "1 2 1"] []).2 = ([1, 2], [], [], []) := by
  rfl

/-- C4 (amended): when the AtomInfo table is NON-empty, the correlator's
name/residue/type lists each have the same length as the extracted atom list,
with the stored metadata for mapped indices and the `Unknown-<index>` /
`Unknown` / `Unknown` placeholders for unmapped ones; when the table is empty
(or `None`), the three lists are returned empty regardless of the atom list. -/
theorem correlator_resolution_total (e : ErrorRec) (section_lines : List (String × Nat))
    (lines : List String) (atom_info : List (Int × AtomRec)) (h : atom_info ≠ []) :
    (identify_atoms_from_context e section_lines lines atom_info).2.2.1 =
      (identify_atoms_from_context e section_lines lines atom_info).2.1.map (fun a =>
        match dfind? atom_info a with
        | some info => info.name
        | none => "Unknown-" ++ toString a) ∧
    (identify_atoms_from_context e section_lines lines atom_info).2.2.2.1 =
      (identify_atoms_from_context e section_lines lines atom_info).2.1.map (fun a =>
        match dfind? atom_info a with
        | some info => info.residue ++ info.resnr
        | none => "Unknown") ∧
    (identify_atoms_from_context e section_lines lines atom_info).2.2.2.2 =
      (identify_atoms_from_context e section_lines lines atom_info).2.1.map (fun a =>
        match dfind? atom_info a with
        | some info => info.type
        | none => "Unknown") ∧
    (identify_atoms_from_context e section_lines lines atom_info).2.2.1.length =
      (identify_atoms_from_context e section_lines lines atom_info).2.1.length ∧
    (identify_atoms_from_context e section_lines lines atom_info).2.2.2.1.length =
      (identify_atoms_from_context e section_lines lines atom_info).2.1.length ∧
    (identify_atoms_from_context e section_lines lines atom_info).2.2.2.2.length =
      (identify_atoms_from_context e section_lines lines atom_info).2.1.length := by
  have key : (identify_atoms_from_context e section_lines lines atom_info).2.2 =
      resolveLoop atom_info (identify_atoms_from_context e section_lines lines atom_info).2.1 := by
    cases hs : findErrorSection section_lines e.line_number with
    | none => rw [identify_of_none e section_lines lines atom_info hs]; rfl
    | some sec =>
        by_cases h0 : e.line_number = 0
        · rw [identify_of_some_noline e section_lines lines atom_info sec hs (Or.inl h0)]
          rfl
        · cases hg : lines.get? (e.line_number - 1) with
          | none =>
              rw [identify_of_some_noline e section_lines lines atom_info sec hs (Or.inr hg)]
              rfl
          | some raw =>
              cases hx : extractAtoms sec (pySplit (pyStrip raw)) with
              | none =>
                  rw [identify_of_some_extract_none e section_lines lines atom_info sec raw
                    hs h0 hg hx]
                  rfl
              | some atoms =>
                  rw [identify_of_some_success e section_lines lines atom_info sec raw atoms
                    hs h0 hg hx]
                  simp [resolveAtoms, h]
  rw [key, resolveLoop_eq_maps]
  simp

/-- Witness for the amended C4: bonds error at line 2, table mapping atom 1
only — atom 2 gets the `Unknown` placeholders, and lengths match. -/
theorem correlator_resolution_total_witness :
    ([(1, (⟨"C1", "CT", "2", "RES"⟩ : AtomRec))] ≠ ([] : List (Int × AtomRec))) ∧
    (identify_atoms_from_context { line_number := 2 } [("[ bonds ]", 1)] ["[ bonds ]", "1 2 1"]
        [(1, ⟨"C1", "CT", "2", "RES"⟩)]).2.2.1 =
      (identify_atoms_from_context { line_number := 2 } [("[ bonds ]", 1)] ["[ bonds ]", "1 2 1"]
        [(1, ⟨"C1", "CT", "2", "RES"⟩)]).2.1.map (fun a =>
          match dfind? [(1, (⟨"C1", "CT", "2", "RES"⟩ : AtomRec))] a with
          | some info => info.name
          | none => "Unknown-" ++ toString a) :=
  ⟨by decide,
    (correlator_resolution_total { line_number := 2 } [("[ bonds ]", 1)] ["[ bonds ]", "1 2 1"]
      [(1, ⟨"C1", "CT", "2", "RES"⟩)] (by decide)).1⟩

/-! ## Claim C5 -/

/-- C5 counterexample: the synthesizer's angle row for CA/CB/CC has NINE
spaces between the U-B field `0.00000000` and the final `0.00` (three literal
spaces plus six spaces of width-10 padding for `{kub:10.2f}`), so the claimed
row — which has only seven spaces there — is not the emitted byte sequence. -/
theorem end_to_end_row_cex :
    generate_angle_dummy ["CA", "CB", "CC"] ≠
      some "      CA       CB       CC     1   120.000000   200.000000   0.00000000       0.00 ;" := by
  decide

/-- C5 (amended): in the end-to-end scenario — `[ angles ]` at line 10, error
at line 12 whose topology line reads `5  7  9  3`, AtomInfo typing atoms 5/7/9
as CA/CB/CC — correlation returns section `[ angles ]` and atom_types
[CA, CB, CC], and synthesis emits exactly the row
`      CA       CB       CC     1   120.000000   200.000000   0.00000000         0.00 ;`
(nine spaces before the final `0.00`, two spaces after the function code's
three-space gap pattern of the source format string). -/
theorem end_to_end_angle_row :
    (identify_atoms_from_context scenarioError (get_context_from_topology scenarioTopology)
        scenarioTopology scenarioAtomInfo).1.«section» = some "[ angles ]" ∧
    (identify_atoms_from_context scenarioError (get_context_from_topology scenarioTopology)
        scenarioTopology scenarioAtomInfo).2.2.2.2 = ["CA", "CB", "CC"] ∧
    process_errors_for_dummies [scenarioEnriched] =
      ⟨["      CA       CB       CC     1   120.000000   200.000000   0.00000000         0.00 ;"],
        []⟩ :=
  ⟨rfl, rfl, rfl⟩

/-! ## Claim C6 -/

theorem list_three_of_length {α : Type} (l : List α) (h : l.length = 3) :
    ∃ a b c, l = [a, b, c] := by
  rcases l with _ | ⟨a, _ | ⟨b, _ | ⟨c, _ | ⟨d, tl⟩⟩⟩⟩
  · simp at h
  · simp at h
  · simp at h
  · exact ⟨a, b, c, rfl⟩
  · simp at h

theorem list_four_of_length {α : Type} (l : List α) (h : l.length = 4) :
    ∃ a b c d, l = [a, b, c, d] := by
  rcases l with _ | ⟨a, _ | ⟨b, _ | ⟨c, _ | ⟨d, _ | ⟨x, tl⟩⟩⟩⟩⟩
  · simp at h
  · simp at h
  · simp at h
  · simp at h
  · exact ⟨a, b, c, d, rfl⟩
  · simp at h

/-- C6: for every record with non-empty atom_types the synthesizer classifies
with angle priority first (message contains "no default u-b types" or
"angle type", or section contains "angle"), then dihedral (message contains
"no default dihedral type" or "dihedral type", or section contains
"dihedral"), else skips it as unrecognized; inside the chosen branch a wrong
arity (≠3 for angle, ≠4 for dihedral) is counted as a wrong-arity skip and
produces no output row. -/
theorem synthesizer_classification (st : DummyState) (e : ErrorRec) (h : e.atom_types ≠ []) :
    (angleCond e = true → e.atom_types.length ≠ 3 →
      processError st e =
        { st with skipped_wrong_atom_count := st.skipped_wrong_atom_count + 1 }) ∧
    (angleCond e = true → e.atom_types.length = 3 →
      ∃ row, generate_angle_dummy e.atom_types = some row ∧
        processError st e =
          { st with angle_dummies := setAdd row st.angle_dummies,
                    processed_errors := st.processed_errors + 1 }) ∧
    (angleCond e = false → dihedralCond e = true → e.atom_types.length ≠ 4 →
      processError st e =
        { st with skipped_wrong_atom_count := st.skipped_wrong_atom_count + 1 }) ∧
    (angleCond e = false → dihedralCond e = true → e.atom_types.length = 4 →
      ∃ row, generate_dihedral_dummy e.atom_types = some row ∧
        processError st e =
          { st with dihedral_dummies := setAdd row st.dihedral_dummies,
                    processed_errors := st.processed_errors + 1 }) ∧
    (angleCond e = false → dihedralCond e = false →
      processError st e =
        { st with skipped_unknown_error := st.skipped_unknown_error + 1 }) := by
  refine ⟨?_, ?_, ?_, ?_, ?_⟩
  · intro ha hlen
    rw [processError]
    simp [h, ha, hlen]
  · intro ha hlen
    obtain ⟨a, b, c, habc⟩ := list_three_of_length e.atom_types hlen
    cases hgen : generate_angle_dummy e.atom_types with
    | none =>
        rw [habc, generate_angle_dummy] at hgen
        exact absurd hgen (by simp)
    | some row =>
        refine ⟨row, rfl, ?_⟩
        rw [processError]
        simp [h, ha, hlen, hgen]
  · intro ha hd hlen
    rw [processError]
    simp [h, ha, hd, hlen]
  · intro ha hd hlen
    obtain ⟨a, b, c, d, habcd⟩ := list_four_of_length e.atom_types hlen
    cases hgen : generate_dihedral_dummy e.atom_types with
    | none =>
        rw [habcd, generate_dihedral_dummy] at hgen
        exact absurd hgen (by simp)
    | some row =>
        refine ⟨row, rfl, ?_⟩
        rw [processError]
        simp [h, ha, hd, hlen, hgen]
  · intro ha hd
    rw [processError]
    simp [h, ha, hd]

/-- Witness for C6: a record whose message contains "angle type", with three
atom types, generates an angle row and increments the processed counter. -/
theorem synthesizer_classification_witness :
    (({ line_number := 1, error_msg := "angle type", atom_types := ["A", "B", "C"] }
        : ErrorRec).atom_types ≠ []) ∧
    angleCond { line_number := 1, error_msg := "angle type", atom_types := ["A", "B", "C"] } =
      true ∧
    (({ line_number := 1, error_msg := "angle type", atom_types := ["A", "B", "C"] }
        : ErrorRec).atom_types.length = 3) ∧
    ∃ row,
      generate_angle_dummy (({ line_number := 1, error_msg := "angle type", atom_types := ["A", "B", "C"] } : ErrorRec).atom_types) = some row ∧
      processError {} { line_number := 1, error_msg := "angle type", atom_types := ["A", "B", "C"] } =
        { ({} : DummyState) with
            angle_dummies := setAdd row ({} : DummyState).angle_dummies,
            processed_errors := ({} : DummyState).processed_errors + 1 } :=
  ⟨by decide, by decide, by decide,
    (synthesizer_classification {}
        { line_number := 1, error_msg := "angle type", atom_types := ["A", "B", "C"] }
        (by decide)).2.1 (by decide) (by decide)⟩

/-! ## Order lemmas for the output sort -/

theorem charListLe_refl : ∀ a : List Char, charListLe a a = true := by
  intro a
  induction a with
  | nil => rfl
  | cons x xs ih => simp [charListLe, lt_irrefl, ih]

theorem charListLe_total : ∀ a b : List Char, charListLe a b = true ∨ charListLe b a = true := by
  intro a
  induction a with
  | nil => intro b; left; rfl
  | cons x xs ih =>
      intro b
      cases b with
      | nil => right; rfl
      | cons y ys =>
          rcases lt_trichotomy x y with h | h | h
          · left; simp [charListLe, h]
          · subst h
            rcases ih ys with hl | hl
            · left; simp [charListLe, lt_irrefl, hl]
            · right; simp [charListLe, lt_irrefl, hl]
          · right; simp [charListLe, h]

theorem charListLe_trans : ∀ a b c : List Char, charListLe a b = true → charListLe b c = true →
    charListLe a c = true := by
  intro a
  induction a with
  | nil => intro b c _ _; rfl
  | cons x xs ih =>
      intro b c hab hbc
      cases b with
      | nil => simp [charListLe] at hab
      | cons y ys =>
          cases c with
          | nil => simp [charListLe] at hbc
          | cons z zs =>
              rw [charListLe] at hab hbc ⊢
              rcases lt_trichotomy x y with h1 | h1 | h1
              · rcases lt_trichotomy y z with h2 | h2 | h2
                · simp [lt_trans h1 h2]
                · subst h2; simp [h1]
                · rw [if_neg (asymm h2), if_pos h2] at hbc
                  exact absurd hbc (by simp)
              · subst h1
                rcases lt_trichotomy x z with h2 | h2 | h2
                · simp [h2]
                · subst h2
                  rw [if_neg (lt_irrefl x)] at hab hbc ⊢
                  rw [if_neg (lt_irrefl x)] at hab hbc ⊢
                  exact ih ys zs hab hbc
                · rw [if_neg (asymm h2), if_pos h2] at hbc
                  exact absurd hbc (by simp)
              · rw [if_neg (asymm h1), if_pos h1] at hab
                exact absurd hab (by simp)

theorem charListLe_antisymm : ∀ a b : List Char, charListLe a b = true → charListLe b a = true →
    a = b := by
  intro a
  induction a with
  | nil =>
      intro b _ hba
      cases b with
      | nil => rfl
      | cons y ys => simp [charListLe] at hba
  | cons x xs ih =>
      intro b hab hba
      cases b with
      | nil => simp [charListLe] at hab
      | cons y ys =>
          rw [charListLe] at hab hba
          rcases lt_trichotomy x y with h | h | h
          · rw [if_neg (asymm h), if_pos h] at hba
            exact absurd hba (by simp)
          · subst h
            rw [if_neg (lt_irrefl x)] at hab hba
            rw [if_neg (lt_irrefl x)] at hab hba
            rw [ih ys hab hba]
          · rw [if_neg (asymm h), if_pos h] at hab
            exact absurd hab (by simp)

instance pyStrLeIsTotal : IsTotal String (fun a b => pyStrLe a b = true) :=
  ⟨fun a b => charListLe_total a.data b.data⟩

instance pyStrLeIsTrans : IsTrans String (fun a b => pyStrLe a b = true) :=
  ⟨fun a b c => charListLe_trans a.data b.data c.data⟩

instance pyStrLeIsAntisymm : IsAntisymm String (fun a b => pyStrLe a b = true) :=
  ⟨fun a b hab hba => String.ext (charListLe_antisymm a.data b.data hab hba)⟩

/-! ## Synthesizer set lemmas -/

theorem mem_setAdd (x d : String) (s : List String) : x ∈ setAdd d s ↔ x = d ∨ x ∈ s := by
  rw [setAdd]
  split_ifs with h
  · constructor
    · exact fun hx => Or.inr hx
    · rintro (rfl | hx)
      · exact h
      · exact hx
  · exact List.mem_cons

theorem setAdd_nodup (d : String) (s : List String) (h : s.Nodup) : (setAdd d s).Nodup := by
  rw [setAdd]
  split_ifs with hm
  · exact h
  · exact List.nodup_cons.mpr ⟨hm, h⟩

theorem processError_sets (st : DummyState) (e : ErrorRec) :
    ((processError st e).angle_dummies = st.angle_dummies ∨
      ∃ row, (processError st e).angle_dummies = setAdd row st.angle_dummies) ∧
    ((processError st e).dihedral_dummies = st.dihedral_dummies ∨
      ∃ row, (processError st e).dihedral_dummies = setAdd row st.dihedral_dummies) := by
  rw [processError]
  split_ifs <;>
    first
    | exact ⟨Or.inl rfl, Or.inl rfl⟩
    | · constructor <;>
        · split
          · first
            | exact Or.inr ⟨_, rfl⟩
            | exact Or.inl rfl
          · exact Or.inl rfl

theorem processError_angle_mem (st : DummyState) (e : ErrorRec) (x : String) :
    x ∈ (processError st e).angle_dummies ↔
      genAngleRow? e = some x ∨ x ∈ st.angle_dummies := by
  rw [processError, genAngleRow?]
  by_cases h0 : e.atom_types = []
  · simp [h0]
  · simp only [if_neg h0]
    by_cases ha : angleCond e = true
    · simp only [if_pos ha]
      by_cases hlen : e.atom_types.length = 3
      · simp only [if_pos hlen]
        cases hgen : generate_angle_dummy e.atom_types with
        | none => simp
        | some row => simp [mem_setAdd, eq_comm]
      · simp [hlen]
    · simp only [if_neg ha]
      by_cases hd : dihedralCond e = true
      · simp only [if_pos hd]
        by_cases hlen : e.atom_types.length = 4
        · simp only [if_pos hlen]
          cases hgen : generate_dihedral_dummy e.atom_types with
          | none => simp
          | some row => simp
        · simp [hlen]
      · simp [hd]

theorem processError_dihedral_mem (st : DummyState) (e : ErrorRec) (x : String) :
    x ∈ (processError st e).dihedral_dummies ↔
      genDihedralRow? e = some x ∨ x ∈ st.dihedral_dummies := by
  rw [processError, genDihedralRow?]
  by_cases h0 : e.atom_types = []
  · simp [h0]
  · simp only [if_neg h0]
    by_cases ha : angleCond e = true
    · simp only [if_pos ha]
      by_cases hlen : e.atom_types.length = 3
      · simp only [if_pos hlen]
        cases hgen : generate_angle_dummy e.atom_types with
        | none => simp
        | some row => simp
      · simp [hlen]
    · simp only [if_neg ha]
      by_cases hd : dihedralCond e = true
      · simp only [if_pos hd]
        by_cases hlen : e.atom_types.length = 4
        · simp only [if_pos hlen]
          cases hgen : generate_dihedral_dummy e.atom_types with
          | none => simp
          | some row => simp [mem_setAdd, eq_comm]
        · simp [hlen]
      · simp [hd]

theorem foldl_processError_nodup :
    ∀ (es : List ErrorRec) (st : DummyState),
      st.angle_dummies.Nodup → st.dihedral_dummies.Nodup →
        (es.foldl processError st).angle_dummies.Nodup ∧
        (es.foldl processError st).dihedral_dummies.Nodup := by
  intro es
  induction es with
  | nil => intro st h1 h2; exact ⟨h1, h2⟩
  | cons e rest ih =>
      intro st h1 h2
      rw [List.foldl_cons]
      have hA : (processError st e).angle_dummies.Nodup := by
        rcases (processError_sets st e).1 with h | ⟨row, h⟩
        · rw [h]; exact h1
        · rw [h]; exact setAdd_nodup row _ h1
      have hB : (processError st e).dihedral_dummies.Nodup := by
        rcases (processError_sets st e).2 with h | ⟨row, h⟩
        · rw [h]; exact h2
        · rw [h]; exact setAdd_nodup row _ h2
      exact ih _ hA hB

theorem foldl_processError_angle_mem :
    ∀ (es : List ErrorRec) (st : DummyState) (x : String),
      x ∈ (es.foldl processError st).angle_dummies ↔
        x ∈ st.angle_dummies ∨ ∃ e ∈ es, genAngleRow? e = some x := by
  intro es
  induction es with
  | nil => intro st x; simp
  | cons e rest ih =>
      intro st x
      rw [List.foldl_cons, ih, processError_angle_mem]
      simp only [List.mem_cons]
      constructor
      · rintro ((hg | hm) | ⟨e2, he2, hg2⟩)
        · exact Or.inr ⟨e, Or.inl rfl, hg⟩
        · exact Or.inl hm
        · exact Or.inr ⟨e2, Or.inr he2, hg2⟩
      · rintro (hm | ⟨e2, (rfl | he2), hg2⟩)
        · exact Or.inl (Or.inr hm)
        · exact Or.inl (Or.inl hg2)
        · exact Or.inr ⟨e2, he2, hg2⟩

theorem foldl_processError_dihedral_mem :
    ∀ (es : List ErrorRec) (st : DummyState) (x : String),
      x ∈ (es.foldl processError st).dihedral_dummies ↔
        x ∈ st.dihedral_dummies ∨ ∃ e ∈ es, genDihedralRow? e = some x := by
  intro es
  induction es with
  | nil => intro st x; simp
  | cons e rest ih =>
      intro st x
      rw [List.foldl_cons, ih, processError_dihedral_mem]
      simp only [List.mem_cons]
      constructor
      · rintro ((hg | hm) | ⟨e2, he2, hg2⟩)
        · exact Or.inr ⟨e, Or.inl rfl, hg⟩
        · exact Or.inl hm
        · exact Or.inr ⟨e2, Or.inr he2, hg2⟩
      · rintro (hm | ⟨e2, (rfl | he2), hg2⟩)
        · exact Or.inl (Or.inr hm)
        · exact Or.inl (Or.inl hg2)
        · exact Or.inr ⟨e2, he2, hg2⟩

/-! ## Claim C9 -/

/-- C9: `process_errors_for_dummies` is deterministic and idempotent (as a
pure function, running it twice on the same enriched sequence gives the same
value), its angle and dihedral outputs are sorted lexicographically by code
point and duplicate-free (set semantics over exact string equality), and
permuting the input error sequence — hence reaching the same generated rows in
a different insertion order — yields an identical output. -/
theorem synthesize_deterministic (es es2 : List ErrorRec) (hperm : es.Perm es2) :
    process_errors_for_dummies es = process_errors_for_dummies es ∧
    List.Sorted (fun a b => pyStrLe a b = true) (process_errors_for_dummies es).angles ∧
    List.Sorted (fun a b => pyStrLe a b = true) (process_errors_for_dummies es).dihedrals ∧
    (process_errors_for_dummies es).angles.Nodup ∧
    (process_errors_for_dummies es).dihedrals.Nodup ∧
    process_errors_for_dummies es = process_errors_for_dummies es2 := by
  have hnd := foldl_processError_nodup es {} List.nodup_nil List.nodup_nil
  have hnd2 := foldl_processError_nodup es2 {} List.nodup_nil List.nodup_nil
  have hA : (es.foldl processError {}).angle_dummies.Perm
      (es2.foldl processError {}).angle_dummies := by
    rw [List.perm_ext_iff_of_nodup hnd.1 hnd2.1]
    intro x
    rw [foldl_processError_angle_mem, foldl_processError_angle_mem]
    constructor
    · rintro (hx | ⟨e, he, hg⟩)
      · exact absurd hx (List.not_mem_nil x)
      · exact Or.inr ⟨e, hperm.mem_iff.mp he, hg⟩
    · rintro (hx | ⟨e, he, hg⟩)
      · exact absurd hx (List.not_mem_nil x)
      · exact Or.inr ⟨e, hperm.mem_iff.mpr he, hg⟩
  have hB : (es.foldl processError {}).dihedral_dummies.Perm
      (es2.foldl processError {}).dihedral_dummies := by
    rw [List.perm_ext_iff_of_nodup hnd.2 hnd2.2]
    intro x
    rw [foldl_processError_dihedral_mem, foldl_processError_dihedral_mem]
    constructor
    · rintro (hx | ⟨e, he, hg⟩)
      · exact absurd hx (List.not_mem_nil x)
      · exact Or.inr ⟨e, hperm.mem_iff.mp he, hg⟩
    · rintro (hx | ⟨e, he, hg⟩)
      · exact absurd hx (List.not_mem_nil x)
      · exact Or.inr ⟨e, hperm.mem_iff.mpr he, hg⟩
  refine ⟨rfl, List.sorted_insertionSort _ _, List.sorted_insertionSort _ _,
    ((List.perm_insertionSort _ _).nodup_iff).mpr hnd.1,
    ((List.perm_insertionSort _ _).nodup_iff).mpr hnd.2, ?_⟩
  have eqA :
      List.insertionSort (fun a b => pyStrLe a b = true) (es.foldl processError {}).angle_dummies =
      List.insertionSort (fun a b => pyStrLe a b = true)
        (es2.foldl processError {}).angle_dummies :=
    List.eq_of_perm_of_sorted
      (((List.perm_insertionSort _ _).trans hA).trans (List.perm_insertionSort _ _).symm)
      (List.sorted_insertionSort _ _) (List.sorted_insertionSort _ _)
  have eqB :
      List.insertionSort (fun a b => pyStrLe a b = true)
        (es.foldl processError {}).dihedral_dummies =
      List.insertionSort (fun a b => pyStrLe a b = true)
        (es2.foldl processError {}).dihedral_dummies :=
    List.eq_of_perm_of_sorted
      (((List.perm_insertionSort _ _).trans hB).trans (List.perm_insertionSort _ _).symm)
      (List.sorted_insertionSort _ _) (List.sorted_insertionSort _ _)
  show DummiesOut.mk _ _ = DummiesOut.mk _ _
  rw [eqA, eqB]

/-- Witness for C9: two records generating an angle and a dihedral row produce
the same output in either order. -/
theorem synthesize_deterministic_witness :
    (([{ line_number := 1, error_msg := "angle type", atom_types := ["A", "B", "C"] }, { line_number := 2, error_msg := "dihedral type", atom_types := ["A", "B", "C", "D"] }] : List ErrorRec).Perm [{ line_number := 2, error_msg := "dihedral type", atom_types := ["A", "B", "C", "D"] }, { line_number := 1, error_msg := "angle type", atom_types := ["A", "B", "C"] }]) ∧
    process_errors_for_dummies [{ line_number := 1, error_msg := "angle type", atom_types := ["A", "B", "C"] }, { line_number := 2, error_msg := "dihedral type", atom_types := ["A", "B", "C", "D"] }] =
      process_errors_for_dummies [{ line_number := 2, error_msg := "dihedral type", atom_types := ["A", "B", "C", "D"] }, { line_number := 1, error_msg := "angle type", atom_types := ["A", "B", "C"] }] :=
  ⟨List.Perm.swap _ _ _,
    (synthesize_deterministic _ _ (List.Perm.swap _ _ _)).2.2.2.2.2⟩

end Grompp
